import Mathlib

/-!
Verification development for the netonline connectivity monitor.

The Go sources are shallowly embedded below:
* the Edge Detector loop of src/netonline/watch.go as an explicit
  state-transition function over a trace of loop inputs;
* the trailing-edge debounce timer of the same loop as a timed model over
  event timestamps (milliseconds as Nat);
* the Wake-Gap Watcher of src/netonline/sleep_wake.go as a fold over tick
  timestamps (milliseconds as Int, since time.Duration is signed);
* the Linux Online Evaluator of the Linux half of src/netonline/bsd_darwin.go
  (recomputeOnline, linuxDefaultRoute, linuxIfaceUp, ifaceHasUsableAddr,
  arpIsReady, hexToIPv4) over an explicit kernel-state record; file contents
  are `Option (List Char)` with `none` meaning the file cannot be opened/read;
* the netlink message walker parseNlMsgs over byte lists (bytes as Nat,
  little-endian header fields, as the unsafe cast reads them on the
  supported targets); its advance computation wraps modulo 2^32 as the
  source's uint32 arithmetic does, so the loop can make zero progress,
  and it is embedded with an explicit iteration budget, `none` standing
  for an iteration count within which the loop has not returned;
* the channel sends and the kernel-read dispatch of both event-source
  bindings as small outcome functions.

String manipulation mirrors the Go standard library on the ASCII data these
files contain: strings.Fields / strings.Split / strings.TrimSpace /
bufio.ScanLines are modelled over `List Char` with the ASCII whitespace set.
-/

namespace Netonline

/-- ASCII whitespace, the characters unicode.IsSpace recognises in the ASCII
range (the /proc files and reason strings handled here are ASCII). -/
def isWS (c : Char) : Bool :=
  c == ' ' || c == '\t' || c == '\n' || c == '\x0b' || c == '\x0c' || c == '\r'

/-- Boolean list-prefix test (used to state the "initial: " cause property). -/
def prefOf : List Char → List Char → Bool
  | [], _ => true
  | _ :: _, [] => false
  | a :: as, b :: bs => a == b && prefOf as bs

/-- Prefix test on strings via their character lists. -/
def strPref (p s : String) : Bool := prefOf p.toList s.toList

/-- Models strings.Split(s, sep) for a one-character separator: empty input
gives one empty field, separators delimit (possibly empty) fields. -/
def splitChar (sep : Char) : List Char → List (List Char)
  | [] => [[]]
  | c :: cs =>
    if c == sep then [] :: splitChar sep cs
    else
      match splitChar sep cs with
      | [] => [[c]]
      | l :: ls => (c :: l) :: ls

/-- Accumulator loop for fieldsOf. -/
def wordsAux : List Char → List Char → List (List Char)
  | [], acc => if acc.isEmpty then [] else [acc.reverse]
  | c :: cs, acc =>
    if isWS c then
      if acc.isEmpty then wordsAux cs [] else acc.reverse :: wordsAux cs []
    else wordsAux cs (c :: acc)

/-- Models strings.Fields: split around runs of whitespace, no empty fields. -/
def fieldsOf (l : List Char) : List (List Char) := wordsAux l []

/-- Models strings.TrimSpace on ASCII data. -/
def trimWS (l : List Char) : List Char :=
  ((l.dropWhile isWS).reverse.dropWhile isWS).reverse

/-- Drops one trailing carriage return, as bufio.ScanLines does. -/
def dropCR (l : List Char) : List Char :=
  match l.reverse with
  | '\r' :: rest => rest.reverse
  | _ => l

/-- Models the token stream of a bufio.Scanner with the default ScanLines
split: newline-separated lines, no final empty token after a trailing
newline, a trailing carriage return stripped from each line. -/
def scanLines (l : List Char) : List (List Char) :=
  let parts := splitChar '\n' l
  let parts2 :=
    match parts.reverse with
    | [] :: rest => rest.reverse
    | _ => parts
  parts2.map dropCR

/-- Value of one hexadecimal digit. -/
def hexDigit? (c : Char) : Option Nat :=
  if '0' ≤ c ∧ c ≤ '9' then some (c.toNat - '0'.toNat)
  else if 'a' ≤ c ∧ c ≤ 'f' then some (c.toNat - 'a'.toNat + 10)
  else if 'A' ≤ c ∧ c ≤ 'F' then some (c.toNat - 'A'.toNat + 10)
  else none

/-- Value of one digit in the given base (digits beyond the base refused). -/
def digitVal? (base : Nat) (c : Char) : Option Nat :=
  match hexDigit? c with
  | some d => if d < base then some d else none
  | none => none

/-- Accumulator loop for baseVal?. -/
def baseValAux (base : Nat) : List Char → Nat → Option Nat
  | [], acc => some acc
  | c :: cs, acc =>
    match digitVal? base c with
    | some d => baseValAux base cs (acc * base + d)
    | none => none

/-- Parses a nonempty digit string in the given base; none on any bad digit. -/
def baseVal? (base : Nat) (l : List Char) : Option Nat :=
  match l with
  | [] => none
  | _ => baseValAux base l 0

/-- Models strconv.ParseInt(s, 16, 64) as the Go code uses it: the error is
discarded, so an invalid literal contributes the value 0. The fields read
from /proc here are short unsigned hex strings, so the 64-bit clamp and the
sign syntax of ParseInt never come into play and are not modelled. -/
def goParseHex (l : List Char) : Nat := (baseVal? 16 l).getD 0

/-- Models strconv.ParseInt(s, 0, 64) on the nonnegative literals found in
/proc/net/arp: 0x/0X hex, 0o/0O octal, 0b/0B binary, a leading 0 octal,
otherwise decimal; the discarded error contributes the value 0. -/
def goParseBase0 (l : List Char) : Nat :=
  match l with
  | '0' :: 'x' :: rest => (baseVal? 16 rest).getD 0
  | '0' :: 'X' :: rest => (baseVal? 16 rest).getD 0
  | '0' :: 'o' :: rest => (baseVal? 8 rest).getD 0
  | '0' :: 'O' :: rest => (baseVal? 8 rest).getD 0
  | '0' :: 'b' :: rest => (baseVal? 2 rest).getD 0
  | '0' :: 'B' :: rest => (baseVal? 2 rest).getD 0
  | ['0'] => 0
  | '0' :: rest => (baseVal? 8 rest).getD 0
  | _ => (baseVal? 10 l).getD 0

/-- Models strconv.ParseUint(h, 16, 8): hex literal that must fit in 8 bits. -/
def goParseHexU8? (l : List Char) : Option Nat :=
  match baseVal? 16 l with
  | some v => if v < 256 then some v else none
  | none => none

/-! ## Wake-Gap Watcher (src/netonline/sleep_wake.go, StartWakeGapWatcher)

Times and durations are milliseconds as Int. The goroutine's loop is the
fold runWakeLoop over the monotonic timestamps observed on the ticker
channel; the returned list holds the timestamps of the ticks at which the
watcher emits a signal (the send is non-blocking on a capacity-1 channel,
so at most one signal per qualifying tick is produced). -/

/-- The sample-interval defaulting at the top of StartWakeGapWatcher. -/
def defaultedSample (sample : Int) : Int := if sample ≤ 0 then 1000 else sample

/-- The gap-threshold defaulting at the top of StartWakeGapWatcher. -/
def defaultedGap (gapThreshold : Int) : Int :=
  if gapThreshold ≤ 0 then 1500 else gapThreshold

/-- The ticker loop: d := now - last; last := now; emit when
d >= sample + gapThreshold. -/
def runWakeLoop (sample gapThreshold : Int) : Int → List Int → List Int
  | _, [] => []
  | last, now :: ticks =>
    if sample + gapThreshold ≤ now - last then
      now :: runWakeLoop sample gapThreshold now ticks
    else runWakeLoop sample gapThreshold now ticks

/-- StartWakeGapWatcher: apply the defaults, seed last with the start time,
run the ticker loop over the observed tick timestamps. -/
def StartWakeGapWatcher (sample gapThreshold : Int) (start : Int)
    (ticks : List Int) : List Int :=
  runWakeLoop (defaultedSample sample) (defaultedGap gapThreshold) start ticks

/-! ## Debounce timing (src/netonline/watch.go, event loop lines 48-66)

Timed model of the debounce timer alone. The input is the list of OSEvent
arrival timestamps in milliseconds, in arrival order; the state is the
deadline of the armed timer, if any. Arrival of an event stops a pending
timer and re-arms it 750 ms later; a pending timer whose deadline lies at or
before the next arrival has already fired by then. The returned list holds
the times at which the timer fires, i.e. at which trigger() calls
recomputeOnline (evaluate). After the last event the armed timer fires. -/

/-- Trailing-edge debounce: fire times of the timer for the given event
times, given the currently armed deadline. -/
def debounceFires (D : Nat) : List Nat → Option Nat → List Nat
  | [], none => []
  | [], some d => [d]
  | t :: ts, none => debounceFires D ts (some (t + D))
  | t :: ts, some d =>
    if d ≤ t then d :: debounceFires D ts (some (t + D))
    else debounceFires D ts (some (t + D))

/-! ## Edge Detector state machine (src/netonline/watch.go, Watch)

Untimed model of the whole Watch function. A run is: the initial
evaluation and emission (lines 21-27), then a sequence of loop inputs.
Each loop input is one of: an OSEvent received on the events channel, the
debounce timer firing (carrying the result the enclosed recomputeOnline
call returns at that moment and the wall-clock time of the emission), or a
non-nil error received on the errs channel. Outputs on the two channels
are interleaved in emission order in a single list of items. -/

/-- A ChangeEvent (type Event in watch.go); changedAt in abstract time units. -/
structure Event where
  online : Bool
  changedAt : Nat
  cause : String
deriving DecidableEq, Repr

/-- One item published by Watch: a ChangeEvent on out or an error on errc. -/
inductive Item
  | ev (e : Event)
  | er (msg : String)
deriving DecidableEq, Repr

/-- One input consumed by the Watch select loop. -/
inductive WStep
  | osEvent (reason : String)
  | timerFire (t : Nat) (online : Bool) (why : String) (err : Option String)
  | errIn (msg : String)
deriving DecidableEq, Repr

/-- The mutable state of the Watch goroutine: last, lastReason, and whether
a debounce timer is armed. -/
structure WState where
  last : Bool
  lastReason : String
  armed : Bool
deriving DecidableEq, Repr

/-- One iteration of the select loop. An OSEvent records its reason and
(re)arms the timer. A timer fire runs trigger(): on error forward it and do
nothing else; if online == last do nothing; otherwise update last and emit
with cause lastReason ++ "; " ++ why (or why when lastReason is empty).
A fire of a timer that is not armed cannot occur in a real run and is a
no-op here. -/
def stepW (s : WState) : WStep → WState × List Item
  | .osEvent r => ({ s with lastReason := r, armed := true }, [])
  | .errIn msg => (s, [.er msg])
  | .timerFire t o why err =>
    if s.armed then
      match err with
      | some msg => ({ s with armed := false }, [.er msg])
      | none =>
        if o ≠ s.last then
          ({ last := o, lastReason := s.lastReason, armed := false },
           [.ev { online := o, changedAt := t,
                  cause := if s.lastReason = "" then why
                           else s.lastReason ++ "; " ++ why }])
        else ({ s with armed := false }, [])
    else (s, [])

/-- The select loop over a list of inputs. -/
def runW : WState → List WStep → WState × List Item
  | s, [] => (s, [])
  | s, st :: rest =>
    let p := stepW s st
    let q := runW p.1 rest
    (q.1, p.2 ++ q.2)

/-- Watch start-up (lines 21-27): one recomputeOnline call with result
(online, why, err); a non-nil err is sent on errc first; the initial event
is emitted with cause "initial: " ++ why; last is seeded with online. -/
def watchInit (now : Nat) (online : Bool) (why : String) (err : Option String) :
    WState × List Item :=
  ({ last := online, lastReason := "", armed := false },
   (match err with | some msg => [Item.er msg] | none => []) ++
   [Item.ev { online := online, changedAt := now, cause := "initial: " ++ why }])

/-- A whole run of Watch: start-up items followed by the loop's items. -/
def watchRun (now : Nat) (online : Bool) (why : String) (err : Option String)
    (steps : List WStep) : List Item :=
  (watchInit now online why err).2 ++
  (runW (watchInit now online why err).1 steps).2

/-- The ChangeEvents among the published items, in order. -/
def eventsOf (items : List Item) : List Event :=
  items.filterMap fun it =>
    match it with
    | .ev e => some e
    | .er _ => none

/-- The online values of the published ChangeEvents, in order. -/
def onlinesOf (items : List Item) : List Bool := (eventsOf items).map Event.online

/-- Number of published events whose cause starts with "initial: ". -/
def countInitial (items : List Item) : Nat :=
  items.countP fun it =>
    match it with
    | .ev e => strPref "initial: " e.cause
    | .er _ => false

/-- The five OSEvent reason constants appearing in the three platform
bindings of startOSEventStream. -/
def osReasons : List String :=
  ["route change", "addr change", "link change", "net change",
   "ip interface change"]

/-- The cause strings the three recomputeOnline implementations return:
the fixed failure causes, "default via " ++ ifname, and the Windows
"fallback: up iface " ++ ifname. -/
def evalCauseConsts : List String :=
  ["default route check failed", "no default route", "default route no iface",
   "iface state check failed", "default iface down",
   "default iface down/loopback", "default iface has no usable IP",
   "gateway neighbor not ready", "no DNS resolver"]

/-- A string producible as the cause of a recomputeOnline result. -/
def isEvalCause (s : String) : Prop :=
  s ∈ evalCauseConsts ∨ (∃ i, s = "default via " ++ i) ∨
    (∃ i, s = "fallback: up iface " ++ i)

/-- A loop input is well formed when its strings are ones the program can
produce: OSEvent reasons are the bindings' constants and timer fires carry
recomputeOnline causes. -/
def goodStep : WStep → Prop
  | .osEvent r => r ∈ osReasons
  | .timerFire _ _ why _ => isEvalCause why
  | .errIn _ => True

/-! ## Channel sends of the OS Event Sources

The osEvent channel is created with capacity 8 in all three bindings. The
Linux and BSD reader loops publish with a plain send statement; the Windows
callback publishes with a select/default send guarded by the stop flag.
A channel is modelled by its buffered contents (receiver detached). -/

/-- Outcome of one send on the buffered osEvent channel. -/
inductive SendOutcome
  | delivered (buf : List String)
  | blocked
  | dropped (buf : List String)
deriving DecidableEq, Repr

/-- Capacity of the osEvent channel: make(chan osEvent, 8) in all bindings. -/
def eventChanCap : Nat := 8

/-- A plain Go channel send: enqueue when a slot is free, otherwise the
sending goroutine blocks. -/
def blockingSend (buf : List String) (reason : String) : SendOutcome :=
  if buf.length < eventChanCap then .delivered (buf ++ [reason]) else .blocked

/-- A select/default send: enqueue when a slot is free, otherwise drop. -/
def nonBlockingSend (buf : List String) (reason : String) : SendOutcome :=
  if buf.length < eventChanCap then .delivered (buf ++ [reason]) else .dropped buf

/-- The Linux netlink reader's event send (out <- osEvent{reason: ...}). -/
def linuxEmitEvent (buf : List String) (reason : String) : SendOutcome :=
  blockingSend buf reason

/-- The BSD/macOS routing-socket reader's event send. -/
def bsdEmitEvent (buf : List String) (reason : String) : SendOutcome :=
  blockingSend buf reason

/-- The Windows callback's send helper: a no-op once the stop flag is set,
otherwise a select/default send on the capacity-8 channel. -/
def winEmitEvent (stopped : Bool) (buf : List String) (reason : String) :
    SendOutcome :=
  if stopped then .dropped buf else nonBlockingSend buf reason

/-! ## Linux Online Evaluator (Linux half of src/netonline/bsd_darwin.go)

Kernel state visible to the evaluator is an explicit record. File contents
are `Option (List Char)`: `none` models a failing os.Open / os.ReadFile.
Go net-package values are modelled by the predicates the code consumes:
an IP address carries the outcomes of the classification methods applied
to it; an interface carries name, index, the two flag bits read, its
address list and whether Addrs() fails. -/

/-- A Go net.Addr as consumed by ifaceHasUsableAddr: the extracted IP may
be nil (a non-IPNet/IPAddr value), and is otherwise classified by the
library predicates the loop applies. -/
structure GoAddr where
  ipNil : Bool
  loopback : Bool
  isV4 : Bool
  v4Unspec : Bool
  linkLocal : Bool
  unspec : Bool
deriving DecidableEq, Repr

/-- A Go net.Interface with the members this code reads. -/
structure NetIface where
  name : List Char
  index : Nat
  flagUp : Bool
  flagLoopback : Bool
  addrsErr : Bool
  addrs : List GoAddr
deriving DecidableEq, Repr

/-- Kernel state read by one evaluate() call. dns stands in for the boolean
result of the Linux hasDNSResolver (a scan of the resolv.conf files for a
non-loopback nameserver line); recomputeOnline only branches on that bit,
so the resolver scan is abstracted as one bit of kernel state. -/
structure LinuxKernel where
  routeFile : Option (List Char)
  ipv6RouteFile : Option (List Char)
  arpFile : Option (List Char)
  interfaces : List NetIface
  operstate : List Char → Option (List Char)
  carrier : List Char → Option (List Char)
  dns : Bool

/-- Models net.InterfaceByName: the first interface with that name, none
standing for the lookup error. -/
def interfaceByName (k : LinuxKernel) (name : List Char) : Option NetIface :=
  k.interfaces.find? fun i => i.name == name

/-- ifIndexToName: scan net.Interfaces() for the index, "" when absent. -/
def ifIndexToName (k : LinuxKernel) (idx : Nat) : List Char :=
  match k.interfaces.find? fun i => i.index == idx with
  | some i => i.name
  | none => []

/-- hexToIPv4: an 8-hex-digit little-endian word rendered as a dotted quad;
"" on any length or parse failure. -/
def hexToIPv4 (hexs : List Char) : List Char :=
  if hexs.length ≠ 8 then []
  else
    let b0 := hexs.take 2
    let b1 := (hexs.drop 2).take 2
    let b2 := (hexs.drop 4).take 2
    let b3 := (hexs.drop 6).take 2
    match goParseHexU8? b3, goParseHexU8? b2, goParseHexU8? b1, goParseHexU8? b0 with
    | some o0, some o1, some o2, some o3 =>
      (toString o0 ++ "." ++ toString o1 ++ "." ++ toString o2 ++ "."
        ++ toString o3).toList
    | _, _, _, _ => []

/-- The scan of the non-header lines of /proc/net/route: the first line with
at least 11 fields, destination column "00000000" and flag bit 0x1 (RTF_UP)
set yields (iface, gateway hex). Lines whose flags field lacks RTF_UP, like
all other lines, are skipped. -/
def v4RouteScan : List (List Char) → Option (List Char × List Char)
  | [] => none
  | ln :: rest =>
    let fs := fieldsOf ln
    if fs.length < 11 then v4RouteScan rest
    else
      let iface := fs.getD 0 []
      let destHex := fs.getD 1 []
      let gwHex := fs.getD 2 []
      let flagsStr := fs.getD 3 []
      if destHex = "00000000".toList then
        let flags := goParseHex flagsStr
        if flags.land 1 ≠ 0 then some (iface, gwHex) else v4RouteScan rest
      else v4RouteScan rest

/-- The scan of the /proc/net/ipv6_route lines: skip blank lines and lines
with fewer than 10 fields; on the first line whose second field equals
"000", resolve the tenth field, parsed as hex, as an interface index. -/
def v6RouteScan (k : LinuxKernel) : List (List Char) → Option (List Char)
  | [] => none
  | ln :: rest =>
    let t := trimWS ln
    if t = [] then v6RouteScan k rest
    else
      let fs := fieldsOf t
      if fs.length < 10 then v6RouteScan k rest
      else if fs.getD 1 [] = "000".toList then
        some (ifIndexToName k (goParseHex (fs.getD 9 [])))
      else v6RouteScan k rest

/-- The IPv6 fallback block of linuxDefaultRoute: strings.Split of the file
on newlines, then v6RouteScan; a hit yields (true, ifname, "", nil); an
unreadable file or no hit yields (false, "", "", nil). -/
def linuxV6DefaultRoute (k : LinuxKernel) :
    Bool × List Char × List Char × Option String :=
  match k.ipv6RouteFile with
  | some content =>
    match v6RouteScan k (splitChar '\n' content) with
    | some ifname => (true, ifname, [], none)
    | none => (false, [], [], none)
  | none => (false, [], [], none)

/-- linuxDefaultRoute: scan /proc/net/route (bufio.Scanner, first line
skipped as the header) for a default IPv4 route; otherwise fall through to
the IPv6 table. Note the error component is nil on every path: a file that
cannot be opened is silently skipped. -/
def linuxDefaultRoute (k : LinuxKernel) :
    Bool × List Char × List Char × Option String :=
  match k.routeFile with
  | some content =>
    match scanLines content with
    | [] => linuxV6DefaultRoute k
    | _ :: rest =>
      match v4RouteScan rest with
      | some (iface, gwHex) => (true, iface, hexToIPv4 gwHex, none)
      | none => linuxV6DefaultRoute k
  | none => linuxV6DefaultRoute k

/-- linuxIfaceUp: flags when the name resolves (a failed lookup skips the
flag check), then /sys operstate ∈ {up, unknown} and carrier == 1, each
check skipped when its file is unreadable. The error result is nil on
every path. -/
def linuxIfaceUp (k : LinuxKernel) (name : List Char) : Bool × Option String :=
  if name = [] then (false, none)
  else if (match interfaceByName k name with
           | some ifi => !ifi.flagUp || ifi.flagLoopback
           | none => false) then (false, none)
  else if (match k.operstate name with
           | some content =>
             !(trimWS content == "up".toList || trimWS content == "unknown".toList)
           | none => false) then (false, none)
  else if (match k.carrier name with
           | some content => !(trimWS content == "1".toList)
           | none => false) then (false, none)
  else (true, none)

/-- The address loop of ifaceHasUsableAddr: skip nil and loopback IPs; a
To4 address is usable unless unspecified; a non-v4 address is usable unless
link-local or unspecified. -/
def usableAddrLoop : List GoAddr → Bool
  | [] => false
  | a :: rest =>
    if a.ipNil || a.loopback then usableAddrLoop rest
    else if a.isV4 then
      if !a.v4Unspec then true else usableAddrLoop rest
    else if a.linkLocal || a.unspec then usableAddrLoop rest
    else true

/-- ifaceHasUsableAddr: resolve the interface, list its addresses (either
failure gives false), and run the usability loop. -/
def ifaceHasUsableAddr (k : LinuxKernel) (name : List Char) : Bool :=
  match interfaceByName k name with
  | none => false
  | some ifi => if ifi.addrsErr then false else usableAddrLoop ifi.addrs

/-- Models net.ParseIP followed by To4 on the gateway strings this program
produces ("" or a dotted quad from hexToIPv4): true exactly when the string
is a dotted-quad IPv4 address (four decimal fields, each 0-255 with no
leading zero). The v4-mapped IPv6 spellings To4 also accepts cannot occur
here and are not modelled. -/
def ipv4Field (f : List Char) : Bool :=
  match f with
  | [] => false
  | ['0'] => true
  | '0' :: _ :: _ => false
  | _ =>
    match baseVal? 10 f with
    | some v => decide (v ≤ 255)
    | none => false

/-- Dotted-quad test, see ipv4Field. -/
def parsesAsIPv4 (s : List Char) : Bool :=
  match splitChar '.' s with
  | [a, b, c, d] => ipv4Field a && ipv4Field b && ipv4Field c && ipv4Field d
  | _ => false

/-- The entry loop of arpIsReady over the non-header lines of
/proc/net/arp: on the first line with at least 6 fields whose device and IP
columns match, require flag bit 0x2 and a MAC other than all-zeros; no
matching entry gives false. -/
def arpScan (gw ifname : List Char) : List (List Char) → Bool
  | [] => false
  | ln :: rest =>
    let f := fieldsOf (trimWS ln)
    if f.length < 6 then arpScan gw ifname rest
    else
      let ipf := f.getD 0 []
      let flags := f.getD 2 []
      let mac := f.getD 3 []
      let dev := f.getD 5 []
      if dev ≠ ifname ∨ ipf ≠ gw then arpScan gw ifname rest
      else
        let v := goParseBase0 flags
        if v.land 2 = 0 then false
        else if mac = "00:00:00:00:00:00".toList then false
        else true

/-- arpIsReady: pass when the gateway does not parse as IPv4 (nil or To4
nil) or when /proc/net/arp is unreadable; otherwise scan the table with the
first line treated as the header. -/
def arpIsReady (k : LinuxKernel) (gw ifname : List Char) : Bool :=
  if ¬ parsesAsIPv4 gw then true
  else
    match k.arpFile with
    | none => true
    | some content =>
      match splitChar '\n' content with
      | [] => false
      | _ :: rest => arpScan gw ifname rest

/-- recomputeOnline for Linux: the layered short-circuit of
default-route, interface name, interface state, usable address, gateway
ARP readiness, and DNS, with the cause string of the first failing layer. -/
def recomputeOnline (k : LinuxKernel) : Bool × String × Option String :=
  match linuxDefaultRoute k with
  | (hasDef, ifname, gw, err) =>
    match err with
    | some e => (false, "default route check failed", some e)
    | none =>
      if ¬ hasDef then (false, "no default route", none)
      else if ifname = [] then (false, "default route no iface", none)
      else
        match linuxIfaceUp k ifname with
        | (_, some e) => (false, "iface state check failed", some e)
        | (up, none) =>
          if ¬ up then (false, "default iface down", none)
          else if ¬ ifaceHasUsableAddr k ifname then
            (false, "default iface has no usable IP", none)
          else if gw ≠ [] ∧ ¬ arpIsReady k gw ifname then
            (false, "gateway neighbor not ready", none)
          else if ¬ k.dns then (false, "no DNS resolver", none)
          else (true, "default via " ++ String.mk ifname, none)

/-- Follows the spec's words for the default-route layer on the IPv6 side:
the IPv6 routing table contains a route with all-zero destination, i.e.
some line of /proc/net/ipv6_route whose first column (the destination
address, 32 hex digits) is all zeros. -/
def specV6HasDefault (content : List Char) : Bool :=
  (splitChar '\n' content).any fun ln =>
    let fs := fieldsOf (trimWS ln)
    decide (10 ≤ fs.length) && fs.getD 0 [] == List.replicate 32 '0'

/-! ## Netlink message walker (parseNlMsgs, Linux half of bsd_darwin.go)

Bytes are Nat (always < 256 in real buffers; reads reduce mod 256). The
unsafe header cast is a little-endian field read on the supported targets. -/

/-- Little-endian 32-bit read of the first four bytes (0 past the end,
which parseNlMsgs never relies on: it reads only behind a length check). -/
def leU32 (b : List Nat) : Nat :=
  match b with
  | b0 :: b1 :: b2 :: b3 :: _ =>
    b0 % 256 + 256 * (b1 % 256 + 256 * (b2 % 256 + 256 * (b3 % 256)))
  | _ => 0

/-- Little-endian 16-bit read of the first two bytes. -/
def leU16 (b : List Nat) : Nat :=
  match b with
  | b0 :: b1 :: _ => b0 % 256 + 256 * (b1 % 256)
  | _ => 0

/-- The packed 16-byte netlink header (type nlmsghdr in the source). -/
structure Nlmsghdr where
  len : Nat
  type : Nat
  flags : Nat
  seq : Nat
  pid : Nat
deriving DecidableEq, Repr

/-- The header cast *(*nlmsghdr)(unsafe.Pointer(&b[0])) as a field read. -/
def readNlHdr (b : List Nat) : Nlmsghdr :=
  { len := leU32 b
    type := leU16 (b.drop 4)
    flags := leU16 (b.drop 6)
    seq := leU32 (b.drop 8)
    pid := leU32 (b.drop 12) }

/-- One parsed message (type nlmsg in the source). -/
structure Nlmsg where
  header : Nlmsghdr
  body : List Nat
deriving DecidableEq, Repr

/-- The advance computation adv := int((h.Len + 3) &^ 3): h.Len is a
uint32, so the addition wraps modulo 2^32 before the low two bits are
cleared (the int conversion is lossless on the 64-bit targets). For
h.Len at least 0xFFFFFFFD the wrapped sum is below 4 and the advance is
0. -/
def advOf (len : Nat) : Nat := (len + 3) % 4294967296 / 4 * 4

/-- The loop of parseNlMsgs with an explicit iteration budget: while at
least 16 bytes remain, read the header; a length below 16 or beyond the
remaining bytes stops with the messages so far and an error; otherwise
take the body b[16:h.Len], advance by advOf h.Len, and stop without error
when the advance overshoots. The Go loop has no budget: a none result
means the loop has not returned within fuel iterations; on an input where
the loop terminates at all, every sufficient fuel yields the same some
result. -/
def parseNlMsgsF : Nat → List Nat → Option (List Nlmsg × Option String)
  | 0, _ => none
  | fuel + 1, b =>
    if 16 ≤ b.length then
      if (readNlHdr b).len < 16 ∨ b.length < (readNlHdr b).len then
        some ([], some "invalid nlmsg len")
      else if b.length < advOf (readNlHdr b).len then
        some ([{ header := readNlHdr b,
                 body := (b.take (readNlHdr b).len).drop 16 }], none)
      else
        match parseNlMsgsF fuel (b.drop (advOf (readNlHdr b).len)) with
        | none => none
        | some (rest, e) =>
          some ({ header := readNlHdr b,
                  body := (b.take (readNlHdr b).len).drop 16 } :: rest, e)
    else some ([], none)

/-- parseNlMsgs, run with an iteration budget sufficient for any input on
which the Go loop terminates: a nonzero advance is at least 16 bytes, so a
terminating run takes at most b.length / 16 + 1 iterations; in particular
a none result exhibits a run that has made no progress. -/
def parseNlMsgs (b : List Nat) : Option (List Nlmsg × Option String) :=
  parseNlMsgsF (b.length / 16 + 1) b

/-- Divergence of the parse loop on an input: no iteration budget makes
the loop return. -/
def loopsForever (b : List Nat) : Prop := ∀ fuel, parseNlMsgsF fuel b = none

/-! ## Kernel reads of the OS Event Sources

The dispatch each reader loop performs on one unix.Recvfrom / unix.Read
result. An Except value carries either the bytes read or the error. -/

/-- A read error: the interrupt errno or any other error, carried with its
message text. -/
inductive RecvErr
  | eintr
  | other (tag : String)
deriving DecidableEq, Repr

/-- Message text of a read error, as fmt's %w renders it. -/
def renderErr : RecvErr → String
  | .eintr => "interrupted system call"
  | .other tag => tag

/-- What one loop iteration does with the read result. The stuck outcome
stands for an iteration that never completes (the parse loop diverging);
it is unreachable from the 64 KiB read buffer the program uses. -/
inductive ReadStep
  | retry
  | fatal (msg : String)
  | softErr (msg : String)
  | deliver (reasons : List String)
  | stuck
deriving DecidableEq, Repr

/-- The netlink message types mapped to reasons (unix.RTM_* values). -/
def rtmNewLink : Nat := 16
/-- RTM_DELLINK. -/
def rtmDelLink : Nat := 17
/-- RTM_NEWADDR. -/
def rtmNewAddr : Nat := 20
/-- RTM_DELADDR. -/
def rtmDelAddr : Nat := 21
/-- RTM_NEWROUTE. -/
def rtmNewRoute : Nat := 24
/-- RTM_DELROUTE. -/
def rtmDelRoute : Nat := 25

/-- The reason tags the Linux loop emits for one batch of parsed messages. -/
def nlReasonsOf (msgs : List Nlmsg) : List String :=
  msgs.filterMap fun m =>
    if m.header.type = rtmNewRoute ∨ m.header.type = rtmDelRoute then
      some "route change"
    else if m.header.type = rtmNewAddr ∨ m.header.type = rtmDelAddr then
      some "addr change"
    else if m.header.type = rtmNewLink ∨ m.header.type = rtmDelLink then
      some "link change"
    else none

/-- One iteration of the Linux netlink reader: EINTR is retried; any other
read error is fatal (emitted, then both channels close); a parse error is
emitted and the loop continues without events; otherwise the parsed
messages' reasons are emitted. -/
def linuxReadStep (r : Except RecvErr (List Nat)) : ReadStep :=
  match r with
  | .error .eintr => .retry
  | .error e => .fatal ("netlink recv: " ++ renderErr e)
  | .ok buf =>
    match parseNlMsgs buf with
    | some (_, some msg) => .softErr msg
    | some (msgs, none) => .deliver (nlReasonsOf msgs)
    | none => .stuck

/-- One iteration of the BSD/macOS routing-socket reader: every read error
is fatal, and every successful read emits one "net change" event whether or
not route.ParseRIB accepts the buffer. -/
def bsdReadStep (r : Except RecvErr (List Nat)) : ReadStep :=
  match r with
  | .error e => .fatal ("route recv: " ++ renderErr e)
  | .ok _ => .deliver ["net change"]

/-! ## Concrete inputs used to exercise the embeddings -/

/-- The header line of /proc/net/route. -/
def hdrV4 : String :=
  "Iface\tDestination\tGateway \tFlags\tRefCnt\tUse\tMetric\tMask\t\tMTU\tWindow\tIRTT"

/-- A default-route line of /proc/net/route: destination 00000000, gateway
0x0101010A (10.1.1.1), flags 0x0003 (RTF_UP among them), via eth0. -/
def lineV4 : String := "eth0\t00000000\t0101010A\t0003\t0\t0\t0\t00000000\t0\t0\t0"

/-- A /proc/net/arp content whose entry for 10.1.1.1 on eth0 has flags 0x0,
i.e. an incomplete neighbor. -/
def arpIncomplete : String :=
  "IP address       HW type     Flags       HW address            Mask     Device\n10.1.1.1         0x1         0x0         aa:bb:cc:dd:ee:ff     *        eth0\n"

/-- Kernel state of a host whose layers all pass up to the ARP check, with
an incomplete neighbor entry for the gateway. -/
def kW : LinuxKernel :=
  { routeFile := some (hdrV4 ++ "\n" ++ lineV4 ++ "\n").toList
    ipv6RouteFile := none
    arpFile := some arpIncomplete.toList
    interfaces :=
      [{ name := "eth0".toList, index := 2, flagUp := true, flagLoopback := false,
         addrsErr := false,
         addrs := [{ ipNil := false, loopback := false, isV4 := true,
                     v4Unspec := false, linkLocal := false, unspec := false }] }]
    operstate := fun n => if n = "eth0".toList then some "up\n".toList else none
    carrier := fun n => if n = "eth0".toList then some "1\n".toList else none
    dns := true }

/-- One line of /proc/net/ipv6_route in the kernel's format: an all-zero
destination of prefix length 00 (a genuine IPv6 default route), next hop an
fe80:: gateway, flags 00450003, device eth0. -/
def v6content : String :=
  "00000000000000000000000000000000 00 00000000000000000000000000000000 00 fe800000000000000000000000000001 00000400 00000000 00000003 00450003 eth0"

/-- Kernel state with no IPv4 default route (header-only /proc/net/route)
and the IPv6 default route of v6content. -/
def k4 : LinuxKernel :=
  { kW with routeFile := some (hdrV4 ++ "\n").toList
            ipv6RouteFile := some v6content.toList }

/-- Kernel state on which every /proc and /sys read fails. -/
def k8 : LinuxKernel :=
  { routeFile := none, ipv6RouteFile := none, arpFile := none, interfaces := [],
    operstate := fun _ => none, carrier := fun _ => none, dns := false }

/-- One 20-byte netlink datagram: header length 20, type RTM_NEWROUTE,
4-byte body. -/
def b0 : List Nat :=
  [20, 0, 0, 0, 24, 0, 0, 0, 0, 0, 0, 0, 0, 0, 0, 0, 1, 2, 3, 4]

/-- A 4294967293-byte (0xFFFFFFFD) buffer whose single header advertises
exactly its own length: the uint32 advance wraps to 0 on it. -/
def bBad : List Nat := [253, 255, 255, 255] ++ List.replicate 4294967289 0

/-- A short well-formed run of the Watch loop: one OSEvent then the timer
firing with a successful evaluation. -/
def steps0 : List WStep :=
  [WStep.osEvent "route change", WStep.timerFire 9 true "default via eth0" none]

/-- A full osEvent channel buffer: 8 queued reasons. -/
def full8 : List String := ["r1", "r2", "r3", "r4", "r5", "r6", "r7", "r8"]

/-! # Theorems -/

/-- Appending strings concatenates their character lists. -/
theorem toListApp (a b : String) : (a ++ b).toList = a.toList ++ b.toList := by
  cases a
  cases b
  rfl

/-- A prefix test only looks at the first p.length characters. -/
theorem prefOf_append_of_le (p x y : List Char) (h : p.length ≤ x.length) :
    prefOf p (x ++ y) = prefOf p x := by
  induction p generalizing x with
  | nil => simp [prefOf]
  | cons a as ih =>
    cases x with
    | nil => simp at h
    | cons b bs =>
      simp only [List.cons_append, prefOf, List.append_eq]
      rw [ih bs (by simpa using h)]

/-- A list is a prefix of itself followed by anything. -/
theorem prefOf_self_append (p y : List Char) : prefOf p (p ++ y) = true := by
  induction p with
  | nil => simp [prefOf]
  | cons a as ih => simp [prefOf, ih]

/-- String version of prefOf_append_of_le. -/
theorem strPref_append_left (p x s : String)
    (hlen : p.toList.length ≤ x.toList.length) :
    strPref p (x ++ s) = strPref p x := by
  simp only [strPref, toListApp]
  exact prefOf_append_of_le _ _ _ hlen

/-- No cause string recomputeOnline can produce starts with "initial: ". -/
theorem evalCause_not_initial (s : String) (h : isEvalCause s) :
    strPref "initial: " s = false := by
  rcases h with h | ⟨i, rfl⟩ | ⟨i, rfl⟩
  · simp [evalCauseConsts] at h
    rcases h with rfl | rfl | rfl | rfl | rfl | rfl | rfl | rfl | rfl <;> decide
  · rw [strPref_append_left _ _ _ (by decide)]
    decide
  · rw [strPref_append_left _ _ _ (by decide)]
    decide

/-- No debounced cause built from an OSEvent reason starts with
"initial: ". -/
theorem reason_cause_not_initial (r s : String) (h : r ∈ osReasons) :
    strPref "initial: " (r ++ "; " ++ s) = false := by
  simp [osReasons] at h
  rcases h with rfl | rfl | rfl | rfl | rfl <;>
    · rw [strPref_append_left _ _ _ (by decide)]
      decide

/-- onlinesOf distributes over item concatenation. -/
theorem onlinesOf_append (a b : List Item) :
    onlinesOf (a ++ b) = onlinesOf a ++ onlinesOf b := by
  simp [onlinesOf, eventsOf, List.filterMap_append]

/-- countInitial distributes over item concatenation. -/
theorem countInitial_append (a b : List Item) :
    countInitial (a ++ b) = countInitial a + countInitial b := by
  simp [countInitial, List.countP_append]

/-- eventsOf distributes over item concatenation. -/
theorem eventsOf_append (a b : List Item) :
    eventsOf (a ++ b) = eventsOf a ++ eventsOf b := by
  simp [eventsOf, List.filterMap_append]

/-- Unfolding of one loop iteration. -/
theorem runW_cons (s : WState) (st : WStep) (rest : List WStep) :
    runW s (st :: rest) =
      ((runW (stepW s st).1 rest).1,
       (stepW s st).2 ++ (runW (stepW s st).1 rest).2) := rfl

/-- Along any run of the select loop, the online values of the emitted
events form a distinct-adjacent chain seeded by the entry value of last. -/
theorem runW_chain (steps : List WStep) (s : WState) :
    List.Chain (fun a b => a ≠ b) s.last (onlinesOf (runW s steps).2) := by
  induction steps generalizing s with
  | nil => simp [runW, onlinesOf, eventsOf]
  | cons st rest ih =>
    rw [runW_cons, onlinesOf_append]
    cases st with
    | osEvent r =>
      simpa [stepW, onlinesOf, eventsOf] using ih { s with lastReason := r, armed := true }
    | errIn msg =>
      simpa [stepW, onlinesOf, eventsOf] using ih s
    | timerFire t o why err =>
      by_cases harm : s.armed
      · cases err with
        | some msg =>
          simpa [stepW, harm, onlinesOf, eventsOf] using ih { s with armed := false }
        | none =>
          by_cases ho : o = s.last
          · simpa [stepW, harm, ho, onlinesOf, eventsOf] using ih { s with armed := false }
          · have hne : o ≠ s.last := ho
            simp only [stepW, harm, if_true, if_pos hne, onlinesOf, eventsOf,
              List.filterMap_cons, List.filterMap_nil, List.map_cons, List.map_nil]
            exact List.Chain.cons (Ne.symm hne)
              (ih { last := o, lastReason := s.lastReason, armed := false })
      · simpa [stepW, harm, onlinesOf, eventsOf] using ih s

/-- Along any well-formed run of the select loop entered with lastReason
empty or an OSEvent reason, no emitted event has a cause starting with
"initial: ". -/
theorem runW_count_initial (steps : List WStep) (s : WState)
    (hgood : ∀ st ∈ steps, goodStep st)
    (hlr : s.lastReason = "" ∨ s.lastReason ∈ osReasons) :
    countInitial (runW s steps).2 = 0 := by
  induction steps generalizing s with
  | nil => simp [runW, countInitial]
  | cons st rest ih =>
    have hst : goodStep st := hgood st (by simp)
    have hrest : ∀ x ∈ rest, goodStep x := fun x hx => hgood x (by simp [hx])
    rw [runW_cons, countInitial_append]
    cases st with
    | osEvent r =>
      have := ih { s with lastReason := r, armed := true } hrest (Or.inr hst)
      simpa [stepW, countInitial] using this
    | errIn msg =>
      simpa [stepW, countInitial] using ih s hrest hlr
    | timerFire t o why err =>
      by_cases harm : s.armed
      · cases err with
        | some msg =>
          simpa [stepW, harm, countInitial] using ih { s with armed := false } hrest hlr
        | none =>
          by_cases ho : o = s.last
          · simpa [stepW, harm, ho, countInitial] using
              ih { s with armed := false } hrest hlr
          · have hne : o ≠ s.last := ho
            have hzero :
                countInitial [Item.ev ⟨o, t,
                  if s.lastReason = "" then why
                  else s.lastReason ++ "; " ++ why⟩] = 0 := by
              rcases hlr with he | hm
              · simp [countInitial, he, evalCause_not_initial why hst]
              · have hne2 : s.lastReason ≠ "" := by
                  intro hcontra
                  rw [hcontra] at hm
                  simp [osReasons] at hm
                simp [countInitial, hne2, reason_cause_not_initial _ _ hm]
            have hrec := ih { last := o, lastReason := s.lastReason, armed := false }
              hrest hlr
            simp only [stepW, harm, if_true, if_pos hne]
            rw [hzero, hrec]
      · simpa [stepW, harm, countInitial] using ih s hrest hlr

/-- C1: on the ChangeEvent stream produced by Watch — the initial event
followed by the loop's emissions — every two consecutive events carry
different online values: a timer fire whose evaluation matches the stored
last emits nothing, and every emission updates last to the emitted value. -/
theorem watch_no_duplicate_edges (now : Nat) (online : Bool) (why : String)
    (err : Option String) (steps : List WStep) :
    List.Chain' (fun a b => a ≠ b) (onlinesOf (watchRun now online why err steps)) := by
  have h := runW_chain steps { last := online, lastReason := "", armed := false }
  have hinit : onlinesOf (watchInit now online why err).2 = [online] := by
    cases err <;> simp [watchInit, onlinesOf, eventsOf]
  rw [watchRun, onlinesOf_append, hinit]
  exact h

/-- The debounce timer armed by an event at time t, with every later event
arriving within 750 ms of its predecessor, fires exactly once, 750 ms
after the last event. -/
theorem debounce_aux (ts : List Nat) (t : Nat)
    (h : List.Chain' (fun a b => b < a + 750) (t :: ts)) :
    debounceFires 750 ts (some (t + 750)) =
      [(t :: ts).getLast (List.cons_ne_nil t ts) + 750] := by
  induction ts generalizing t with
  | nil => simp [debounceFires]
  | cons t2 ts2 ih =>
    rw [List.chain'_cons] at h
    obtain ⟨h1, h2⟩ := h
    rw [debounceFires]
    rw [if_neg (by omega)]
    rw [ih t2 h2]
    rw [List.getLast_cons (List.cons_ne_nil t2 ts2)]

/-- C2: for a nonempty OSEvent sequence whose consecutive arrivals are
always less than 750 ms apart, the Edge Detector's debounce timer fires —
and hence evaluate() is called — exactly once, 750 ms after the last
event: each arrival stops any armed timer and re-arms it 750 ms out. -/
theorem debounce_single_evaluate (t : Nat) (ts : List Nat)
    (h : List.Chain' (fun a b => b < a + 750) (t :: ts)) :
    debounceFires 750 (t :: ts) none =
      [(t :: ts).getLast (List.cons_ne_nil t ts) + 750] := by
  rw [debounceFires]
  exact debounce_aux ts t h

/-- Witness for C2: a burst at 0, 100, 200 ms collapses to the single
evaluation at 950 ms. -/
theorem debounce_single_evaluate_witness :
    debounceFires 750 [0, 100, 200] none = [950] := by
  have h := debounce_single_evaluate 0 [100, 200]
    (by norm_num [List.chain'_cons, List.chain'_singleton])
  simpa using h

/-- C3: every run of Watch begins with exactly one initial event: the
start-up evaluation's result is emitted as {online, now, "initial: " ++
cause} and seeds last; a start-up error is published on the error stream
before the initial event, which is still emitted; and no later event of a
well-formed run has an "initial: "-prefixed cause. -/
theorem watch_initial_event (now : Nat) (online : Bool) (why : String)
    (err : Option String) (steps : List WStep)
    (hgood : ∀ st ∈ steps, goodStep st) :
    watchRun now online why err steps =
      (match err with | some msg => [Item.er msg] | none => []) ++
        Item.ev { online := online, changedAt := now, cause := "initial: " ++ why }
          :: (runW { last := online, lastReason := "", armed := false } steps).2
    ∧ (eventsOf (watchRun now online why err steps)).head? =
        some { online := online, changedAt := now, cause := "initial: " ++ why }
    ∧ countInitial (watchRun now online why err steps) = 1
    ∧ (watchInit now online why err).1.last = online := by
  refine ⟨by cases err <;> simp [watchRun, watchInit, runW], ?_, ?_, rfl⟩
  · rw [watchRun, eventsOf_append]
    have : eventsOf (watchInit now online why err).2 =
        [{ online := online, changedAt := now, cause := "initial: " ++ why }] := by
      cases err <;> simp [watchInit, eventsOf]
    rw [this]
    rfl
  · rw [watchRun, countInitial_append]
    have h1 : countInitial (watchInit now online why err).2 = 1 := by
      have hp : strPref "initial: " ("initial: " ++ why) = true := by
        simp only [strPref, toListApp]
        exact prefOf_self_append _ _
      cases err <;> simp [watchInit, countInitial, hp]
    have h2 := runW_count_initial steps
      { last := online, lastReason := "", armed := false } hgood (Or.inl rfl)
    rw [h1]
    rw [show (watchInit now online why err).1 =
      { last := online, lastReason := "", armed := false } from rfl]
    rw [h2]

/-- Witness for C3: a concrete run with a start-up error, one OSEvent and
one successful timer fire has exactly one "initial: " event. -/
theorem watch_initial_event_witness :
    countInitial (watchRun 5 false "no default route" (some "boom") steps0) = 1 := by
  have hg : ∀ st ∈ steps0, goodStep st := by
    intro st hst
    simp [steps0] at hst
    rcases hst with rfl | rfl
    · simp [goodStep, osReasons]
    · exact Or.inr (Or.inl ⟨"eth0", rfl⟩)
  exact (watch_initial_event 5 false "no default route" (some "boom") steps0 hg).2.2.1

/-- C9: the Wake-Gap Watcher (sample defaulting to 1000 ms, gap threshold
to 1500 ms on non-positive arguments) emits a signal at exactly those
ticks arriving at least sample + gap after their predecessor (the first
predecessor being the start time): each tick is compared against its
predecessor, last is always advanced, and each qualifying tick yields one
signal. -/
theorem wake_gap_signal_iff (sample gapThreshold start : Int) (ticks : List Int) :
    StartWakeGapWatcher sample gapThreshold start ticks =
      (((start :: ticks).zip ticks).filter fun p =>
          decide (defaultedSample sample + defaultedGap gapThreshold ≤ p.2 - p.1)).map
        Prod.snd := by
  have key : ∀ (s g last : Int) (ts : List Int),
      runWakeLoop s g last ts =
        (((last :: ts).zip ts).filter fun p => decide (s + g ≤ p.2 - p.1)).map
          Prod.snd := by
    intro s g last ts
    induction ts generalizing last with
    | nil => rfl
    | cons t ts2 ih =>
      rw [runWakeLoop]
      by_cases hc : s + g ≤ t - last
      · simp [hc, List.zip_cons_cons, List.filter_cons, ih t]
      · simp [hc, List.zip_cons_cons, List.filter_cons, ih t]
  exact key _ _ _ _

/-- Counterexample to C10 as stated: on the 0xFFFFFFFD-byte buffer bBad,
whose header passes both guards (16 <= h.Len = len(b)), the uint32 advance
(h.Len + 3) &^ 3 wraps to 0, the slice b = b[0:] makes no progress, and
the loop never terminates: no iteration budget makes it return. -/
theorem parse_loop_zero_advance_cex :
    (readNlHdr bBad).len = 4294967293 ∧
    bBad.length = 4294967293 ∧
    advOf (readNlHdr bBad).len = 0 ∧
    loopsForever bBad := by
  have hhdr : (readNlHdr bBad).len = 4294967293 := rfl
  have hlen : bBad.length = 4294967293 := by
    rw [bBad]
    rw [List.length_append, List.length_replicate]
    norm_num
  have hadv : advOf (readNlHdr bBad).len = 0 := by
    rw [hhdr]
    rfl
  refine ⟨hhdr, hlen, hadv, ?_⟩
  intro fuel
  induction fuel with
  | zero => rfl
  | succ n ih =>
    simp only [parseNlMsgsF]
    rw [if_pos (by rw [hlen]; norm_num)]
    rw [if_neg (by rw [hhdr, hlen]; norm_num)]
    rw [if_neg (by rw [hadv, hlen]; norm_num)]
    rw [hadv, List.drop_zero, ih]

/-- Fuel-indexed form of the C10 in-bounds property, for inputs short
enough that the uint32 advance cannot wrap. -/
theorem parseNlMsgsF_inbounds (n : Nat) :
    ∀ b : List Nat, b.length < 4294967293 → b.length < 16 * n →
      ∃ msgs e, parseNlMsgsF n b = some (msgs, e) ∧
        (∀ m ∈ msgs, m.body <:+: b ∧ m.body.length + 16 ≤ b.length ∧
          16 ≤ m.header.len ∧ m.header.len ≤ b.length) ∧
        16 * msgs.length ≤ b.length := by
  induction n with
  | zero =>
    intro b hb hf
    omega
  | succ n ih =>
    intro b hb hf
    by_cases h16 : 16 ≤ b.length
    · by_cases hbad : (readNlHdr b).len < 16 ∨ b.length < (readNlHdr b).len
      · refine ⟨[], some "invalid nlmsg len", ?_, by simp, by simp⟩
        simp only [parseNlMsgsF]
        rw [if_pos h16, if_pos hbad]
      · have hlo : 16 ≤ (readNlHdr b).len := by omega
        have hhi : (readNlHdr b).len ≤ b.length := by omega
        have hadveq : advOf (readNlHdr b).len = ((readNlHdr b).len + 3) / 4 * 4 := by
          unfold advOf
          rw [Nat.mod_eq_of_lt (by omega)]
        have hadvlo : 16 ≤ advOf (readNlHdr b).len := by
          rw [hadveq]
          omega
        have hbodyPiece : (b.take (readNlHdr b).len).drop 16 <:+: b :=
          (List.drop_suffix _ _).isInfix.trans (List.take_prefix _ _).isInfix
        have hbodylen :
            ((b.take (readNlHdr b).len).drop 16).length + 16 ≤ b.length := by
          simp only [List.length_drop, List.length_take]
          omega
        by_cases hadv : b.length < advOf (readNlHdr b).len
        · refine ⟨[{ header := readNlHdr b,
                     body := (b.take (readNlHdr b).len).drop 16 }], none,
                  ?_, ?_, ?_⟩
          · simp only [parseNlMsgsF]
            rw [if_pos h16, if_neg hbad, if_pos hadv]
          · intro m hm
            simp only [List.mem_singleton] at hm
            subst hm
            exact ⟨hbodyPiece, hbodylen, hlo, hhi⟩
          · simpa using h16
        · have hd := List.length_drop (advOf (readNlHdr b).len) b
          obtain ⟨rest, e, hres, hin, hcount⟩ :=
            ih (b.drop (advOf (readNlHdr b).len)) (by omega) (by omega)
          refine ⟨{ header := readNlHdr b,
                    body := (b.take (readNlHdr b).len).drop 16 } :: rest, e,
                  ?_, ?_, ?_⟩
          · simp only [parseNlMsgsF]
            rw [if_pos h16, if_neg hbad, if_neg hadv, hres]
          · intro m hm
            simp only [List.mem_cons] at hm
            rcases hm with rfl | hm
            · exact ⟨hbodyPiece, hbodylen, hlo, hhi⟩
            · obtain ⟨hinf, hlen2, hl1, hl2⟩ := hin m hm
              exact ⟨hinf.trans (List.drop_suffix _ _).isInfix, by omega, hl1,
                by omega⟩
          · simp only [List.length_cons]
            omega
    · refine ⟨[], none, ?_, by simp, by simp⟩
      simp only [parseNlMsgsF]
      rw [if_neg h16]

/-- C10 amended: parseNlMsgs reads a header only when at least 16 bytes
remain, takes the body b[16:h.Len] only after verifying 16 <= h.Len <=
len(b), and every returned body is a contiguous in-bounds piece of the
input; on every input shorter than 0xFFFFFFFD bytes — in particular every
buffer the 64 KiB reader can produce — each iteration consumes at least
16 bytes, so the loop terminates (within len(b)/16 + 1 iterations) and
returns at most len(b)/16 messages. On longer inputs totality can fail:
see the zero-advance divergence. -/
theorem parseNlMsgs_inbounds (b : List Nat) (hb : b.length < 4294967293) :
    ∃ msgs e, parseNlMsgs b = some (msgs, e) ∧
      (∀ m ∈ msgs, m.body <:+: b ∧ m.body.length + 16 ≤ b.length ∧
        16 ≤ m.header.len ∧ m.header.len ≤ b.length) ∧
      16 * msgs.length ≤ b.length :=
  parseNlMsgsF_inbounds (b.length / 16 + 1) b hb (by omega)

/-- Witness for C10: the concrete 20-byte datagram b0 satisfies the length
bound, its parse returns, and the 4-byte body of the parsed message is an
in-bounds piece of b0. -/
theorem parseNlMsgs_inbounds_witness :
    ([1, 2, 3, 4] : List Nat) <:+: b0 ∧ (4 : Nat) + 16 ≤ b0.length := by
  obtain ⟨msgs, e, heq, hin, _⟩ := parseNlMsgs_inbounds b0 (by decide)
  have hval : parseNlMsgs b0 =
      some ([{ header := { len := 20, type := 24, flags := 0, seq := 0, pid := 0 },
               body := [1, 2, 3, 4] }], none) := by decide
  rw [heq] at hval
  have hpair := Option.some.inj hval
  have hmsgs : msgs =
      [{ header := { len := 20, type := 24, flags := 0, seq := 0, pid := 0 },
         body := [1, 2, 3, 4] }] := congrArg Prod.fst hpair
  have h := hin
    { header := { len := 20, type := 24, flags := 0, seq := 0, pid := 0 },
      body := [1, 2, 3, 4] }
    (by rw [hmsgs]; exact List.mem_singleton.mpr rfl)
  exact ⟨h.1, h.2.1⟩

set_option maxRecDepth 8000 in
/-- C4: the kernel writes /proc/net/ipv6_route destination prefix lengths
as two hex digits, so the source's test of the second column against "000"
can never recognise a default route there: on a table holding a genuine
default route (all-zero destination, prefix length 00) and no IPv4 default
route, linuxDefaultRoute reports no default route and evaluate() returns
(false, "no default route"), against the spec's layer-1 condition. -/
theorem linux_v6_default_route_missed :
    specV6HasDefault v6content.toList = true ∧
    linuxDefaultRoute k4 = (false, [], [], none) ∧
    recomputeOnline k4 = (false, "no default route", none) := by
  refine ⟨by decide, by decide, by decide⟩

/-- C5: once the earlier layers pass with a non-empty IPv4 gateway,
evaluate() is online only if arpIsReady accepts the gateway's neighbor
entry (flag bit 0x2 set and MAC not all-zeros, per its definition), and an
arpIsReady failure yields exactly (false, "gateway neighbor not ready");
an unreadable neighbor table passes, and a gateway that does not parse as
IPv4 skips the check. -/
theorem arp_gate_behavior (k : LinuxKernel) (ifn gw : List Char)
    (hroute : linuxDefaultRoute k = (true, ifn, gw, none))
    (hifn : ifn ≠ [])
    (hup : linuxIfaceUp k ifn = (true, none))
    (haddr : ifaceHasUsableAddr k ifn = true)
    (hgw : gw ≠ []) :
    ((recomputeOnline k).1 = true → arpIsReady k gw ifn = true)
    ∧ (arpIsReady k gw ifn = false →
        recomputeOnline k = (false, "gateway neighbor not ready", none))
    ∧ (parsesAsIPv4 gw = true → k.arpFile = none → arpIsReady k gw ifn = true)
    ∧ (∀ gw2 ifn2, parsesAsIPv4 gw2 = false → arpIsReady k gw2 ifn2 = true) := by
  have conj3 : parsesAsIPv4 gw = true → k.arpFile = none →
      arpIsReady k gw ifn = true := by
    intro hp hfile
    simp only [arpIsReady]
    rw [if_neg (by simp [hp]), hfile]
  have conj4 : ∀ gw2 ifn2, parsesAsIPv4 gw2 = false →
      arpIsReady k gw2 ifn2 = true := by
    intro gw2 ifn2 hp2
    simp only [arpIsReady]
    rw [if_pos (by simp [hp2])]
  by_cases har : arpIsReady k gw ifn
  · exact ⟨fun _ => har, fun hfalse => absurd har (by simp [hfalse]), conj3, conj4⟩
  · have har2 : arpIsReady k gw ifn = false := by simpa using har
    have hres : recomputeOnline k = (false, "gateway neighbor not ready", none) := by
      simp only [recomputeOnline, hroute, hup]
      simp [hifn, haddr, hgw, har2]
    refine ⟨fun htrue => ?_, fun _ => hres, conj3, conj4⟩
    rw [hres] at htrue
    simp at htrue

/-- Witness for C5: on the concrete kernel state kW — default route via
eth0 with gateway 10.1.1.1, interface up with carrier and a usable
address, DNS present, but the neighbor entry still incomplete (flags 0x0)
— evaluate() returns (false, "gateway neighbor not ready"). -/
theorem arp_gate_behavior_witness :
    recomputeOnline kW = (false, "gateway neighbor not ready", none) := by
  have h := arp_gate_behavior kW ("eth0".toList) ("10.1.1.1".toList)
    (by decide) (by decide) (by decide) (by decide) (by decide)
  exact h.2.1 (by decide)

/-- The IPv6 fallback of linuxDefaultRoute never reports an error. -/
theorem linuxV6DefaultRoute_err_none (k : LinuxKernel) :
    (linuxV6DefaultRoute k).2.2.2 = none := by
  unfold linuxV6DefaultRoute
  split
  · split <;> rfl
  · rfl

/-- linuxDefaultRoute never reports an error: a routing table that cannot
be read is silently treated as holding no default route. -/
theorem linuxDefaultRoute_err_none (k : LinuxKernel) :
    (linuxDefaultRoute k).2.2.2 = none := by
  unfold linuxDefaultRoute
  split
  · split
    · exact linuxV6DefaultRoute_err_none k
    · split
      · rfl
      · exact linuxV6DefaultRoute_err_none k
  · exact linuxV6DefaultRoute_err_none k

/-- linuxIfaceUp never reports an error. -/
theorem linuxIfaceUp_err_none (k : LinuxKernel) (name : List Char) :
    (linuxIfaceUp k name).2 = none := by
  unfold linuxIfaceUp
  split_ifs <;> rfl

/-- Counterexample to C8 as stated: on a kernel state where every /proc
and /sys read fails, evaluate() surfaces no error at all and its cause is
"no default route", not the claimed "default route check failed". -/
theorem evaluator_io_error_silent_cex :
    recomputeOnline k8 = (false, "no default route", none) ∧
    (recomputeOnline k8).2.2 = none ∧
    (recomputeOnline k8).2.1 ≠ "default route check failed" := by
  refine ⟨by rfl, by rfl, by decide⟩

/-- C8 amended: the Linux evaluator never surfaces an evaluator I/O error:
linuxDefaultRoute and linuxIfaceUp swallow every read failure, so
recomputeOnline's error component is nil on every kernel state, and with
both routing tables unreadable it returns (false, "no default route") —
the "default route check failed" and "iface state check failed" branches
are dead code. -/
theorem evaluator_no_error_surfaced (k : LinuxKernel) :
    (recomputeOnline k).2.2 = none ∧
    (k.routeFile = none → k.ipv6RouteFile = none →
      recomputeOnline k = (false, "no default route", none)) := by
  constructor
  · rcases hL : linuxDefaultRoute k with ⟨hasDef, ifn, gw, e⟩
    have he : e = none := by
      have h := linuxDefaultRoute_err_none k
      rw [hL] at h
      exact h
    subst he
    rcases hU : linuxIfaceUp k ifn with ⟨up, e2⟩
    have he2 : e2 = none := by
      have h := linuxIfaceUp_err_none k ifn
      rw [hU] at h
      exact h
    subst he2
    simp only [recomputeOnline, hL, hU]
    split_ifs <;> rfl
  · intro h1 h2
    simp [recomputeOnline, linuxDefaultRoute, linuxV6DefaultRoute, h1, h2]

/-- Witness for C8 amended: the unreadable-kernel state k8 evaluates to
(false, "no default route") with no error. -/
theorem evaluator_no_error_surfaced_witness :
    recomputeOnline k8 = (false, "no default route", none) :=
  (evaluator_no_error_surfaced k8).2 rfl rfl

/-- Counterexample to C6 as stated: with the 8-slot buffer full, the
Linux and BSD readers' plain sends block instead of dropping; only the
Windows callback's select/default send drops. -/
theorem event_send_blocks_cex :
    linuxEmitEvent full8 "route change" = SendOutcome.blocked ∧
    bsdEmitEvent full8 "net change" = SendOutcome.blocked ∧
    linuxEmitEvent full8 "route change" ≠ SendOutcome.dropped full8 ∧
    winEmitEvent false full8 "route change" = SendOutcome.dropped full8 := by
  decide

/-- C6 amended: all bindings buffer OSEvents in a capacity-8 channel, but
only the Windows callback drops on overflow; the Linux and BSD reader
loops use plain sends, which block the kernel reader on a full buffer. -/
theorem event_send_overflow_behavior (buf : List String) (reason : String)
    (h : eventChanCap ≤ buf.length) :
    linuxEmitEvent buf reason = SendOutcome.blocked ∧
    bsdEmitEvent buf reason = SendOutcome.blocked ∧
    winEmitEvent false buf reason = SendOutcome.dropped buf ∧
    eventChanCap = 8 := by
  have hc : ¬ buf.length < eventChanCap := by omega
  exact ⟨by simp [linuxEmitEvent, blockingSend, hc],
         by simp [bsdEmitEvent, blockingSend, hc],
         by simp [winEmitEvent, nonBlockingSend, hc], rfl⟩

/-- Witness for C6 amended: at the concrete full buffer the Linux send
blocks. -/
theorem event_send_overflow_behavior_witness :
    linuxEmitEvent full8 "addr change" = SendOutcome.blocked :=
  (event_send_overflow_behavior full8 "addr change" (by decide)).1

/-- Counterexample to C7 as stated: an EINTR on the BSD/macOS routing
socket is not retried; it is emitted as a fatal error. -/
theorem bsd_eintr_fatal_cex :
    bsdReadStep (Except.error RecvErr.eintr) =
      ReadStep.fatal "route recv: interrupted system call" ∧
    bsdReadStep (Except.error RecvErr.eintr) ≠ ReadStep.retry := by
  decide

/-- C7 amended: the Linux netlink reader retries reads failing with EINTR
transparently and treats every other read failure as fatal (error emitted,
then both streams close); the BSD/macOS reader treats every read failure,
EINTR included, as fatal. -/
theorem read_error_dispatch :
    (∀ e : RecvErr, linuxReadStep (Except.error e) =
        match e with
        | RecvErr.eintr => ReadStep.retry
        | RecvErr.other tag => ReadStep.fatal ("netlink recv: " ++ tag)) ∧
    (∀ e : RecvErr, bsdReadStep (Except.error e) =
        ReadStep.fatal ("route recv: " ++ renderErr e)) := by
  constructor <;> intro e <;> cases e <;> rfl

end Netonline
